import Mathlib

/-!
Verification of the Multi-Agent Coordination and Policy Engine
(backend/app/viewmodels/ml/policy_engine.py and
backend/app/viewmodels/ml/multi_agent_orchestrator.py).

The Python code works on string-keyed dicts; here actions and contexts are
records with the fields the engine reads.  Numeric values are modelled as
rationals, `context.get(key, default)` as `Option.getD` with the default of
the call site that reads the field.  Python exceptions are modelled with
`Except`.  Python's stable `sorted(..., key=rank)` is modelled by a stable
insertion sort on the same rank.
-/

namespace UCSN

/-- Substring test, modelling the Python expression `needle in haystack`
(used by policy conditions such as `"COOLING" in action.get("action", "")`). -/
def charsContain (needle : List Char) : List Char → Bool
  | [] => needle.isEmpty
  | c :: t => needle.isPrefixOf (c :: t) || charsContain needle t

/-- String form of `charsContain`. -/
def strContains (haystack needle : String) : Bool :=
  charsContain needle.toList haystack.toList

/-- An action dict as produced by the agents: keys "action", "priority",
"zones", "energy_impact_mw", "reason", and the "scope_reduced" flag added by
the capacity stage (absent key modelled as `false`). -/
structure Action where
  name : String
  priority : String
  zones : String
  energy_impact_mw : ℚ
  reason : String
  scope_reduced : Bool := false
deriving DecidableEq, Inhabited

/-- A forecast dict as read by HeatAgent: `forecast.get("statistics", {}).get("maximum", 0)`. -/
structure TempForecast where
  maximum : ℚ
deriving DecidableEq, Inhabited

/-- The context dict.  `none` models an absent key; each reader applies the
default of its own call site. -/
structure Context where
  temperature : Option ℚ := none
  flood_risk : Option String := none
  aqi : Option ℚ := none
  energy_load : Option ℚ := none
  system_health : Option String := none
  sensor_connectivity : Option ℚ := none
  pending_actions : List Action := []
  temp_forecast : Option TempForecast := none
  flood_forecast_overall_risk : Option String := none
  temp_anomaly_count : Option ℚ := none
  rainfall_anomaly_count : Option ℚ := none

/-- Priority rank: `priority_order.get(x.get("priority", "LOW"), 3)` with
`priority_order = {"CRITICAL": 0, "HIGH": 1, "MEDIUM": 2, "LOW": 3}`;
a missing or unknown priority maps to 3. -/
def priorityRank (a : Action) : Nat :=
  if a.priority = "CRITICAL" then 0
  else if a.priority = "HIGH" then 1
  else if a.priority = "MEDIUM" then 2
  else 3

/-- Stable insertion of an action into an already sorted list: the new
action comes from further left in the original list, so it is placed before
every element of equal rank. -/
def insertByRank (a : Action) : List Action → List Action
  | [] => [a]
  | b :: t => if priorityRank b < priorityRank a then b :: insertByRank a t else a :: b :: t

/-- Stable sort by priority rank, modelling Python's stable
`sorted(actions, key=lambda x: priority_order.get(x.get("priority", "LOW"), 3))`. -/
def sortByRank : List Action → List Action
  | [] => []
  | a :: t => insertByRank a (sortByRank t)

/-- One entry of the `violations` list built by `validate_action`. -/
structure Violation where
  policy_id : String
  rule : String
  reason : String
deriving DecidableEq, Inhabited

/-- One entry of the `modifications` list built by `validate_action`. -/
structure Modification where
  policy_id : String
  modification : String
deriving DecidableEq, Inhabited

/-- One entry of the `safety_results` list built by `validate_action`. -/
structure SafetyResult where
  check_id : String
  passed : Bool
  message : String
deriving DecidableEq, Inhabited

/-- A policy dict: id, rule text, condition, effect string
("BLOCK" | "DEFER" | "MODIFY" | "ALLOW"), optional modification, reason. -/
structure Policy where
  id : String
  rule : String
  condition : Context → Action → Bool
  effect : String
  modification : Option (Action → Action) := none
  reason : String

/-- The `energy_threshold` BLOCK policy. -/
def energyThresholdPolicy : Policy where
  id := "energy_threshold"
  rule := "Don't raise coastal shields while energy load is below 80% capacity"
  condition := fun ctx a =>
    decide (a.name = "RAISE_COASTAL_BARRIERS") &&
    decide (ctx.energy_load.getD 0 / 6000 < (0.8 : ℚ))
  effect := "BLOCK"
  reason := "Energy capacity sufficient, barriers not needed"

/-- The `cooling_during_peak` DEFER policy. -/
def coolingDuringPeakPolicy : Policy where
  id := "cooling_during_peak"
  rule := "Don't trigger cooling nodes during peak energy load (>90%)"
  condition := fun ctx a =>
    strContains a.name "COOLING" &&
    decide ((0.9 : ℚ) < ctx.energy_load.getD 0 / 6000)
  effect := "DEFER"
  reason := "Peak energy load - defer cooling to avoid grid overload"

/-- The `conflicting_barriers` BLOCK policy. -/
def conflictingBarriersPolicy : Policy where
  id := "conflicting_barriers"
  rule := "Don't raise and lower barriers simultaneously"
  condition := fun ctx a =>
    decide (a.name = "LOWER_COASTAL_BARRIERS") &&
    ctx.pending_actions.any (fun p => decide (p.name = "RAISE_COASTAL_BARRIERS"))
  effect := "BLOCK"
  reason := "Conflicting barrier actions detected"

/-- The `emergency_override` ALLOW policy. -/
def emergencyOverridePolicy : Policy where
  id := "emergency_override"
  rule := "Allow critical actions even during high energy load if risk is critical"
  condition := fun ctx a =>
    decide (a.priority = "CRITICAL") &&
    decide ((0.9 : ℚ) < ctx.energy_load.getD 0 / 6000)
  effect := "ALLOW"
  reason := "Critical risk overrides energy constraints"

/-- The rewriting performed by the `aqi_cooling_conflict` MODIFY policy:
`{**action, "action": "ACTIVATE_COOLING_WITH_AIR_FILTER",
"reason": action.get("reason", "") + " (with air filtration)"}`. -/
def aqiModify (a : Action) : Action :=
  { a with name := "ACTIVATE_COOLING_WITH_AIR_FILTER",
           reason := a.reason ++ " (with air filtration)" }

/-- The `aqi_cooling_conflict` MODIFY policy. -/
def aqiCoolingPolicy : Policy where
  id := "aqi_cooling_conflict"
  rule := "Don't activate cooling if AQI is critical (cooling may worsen air quality)"
  condition := fun ctx a =>
    strContains a.name "COOLING" && decide ((200 : ℚ) < ctx.aqi.getD 0)
  effect := "MODIFY"
  modification := some aqiModify
  reason := "Cooling activated with air filtration due to high AQI"

/-- The policy list of `_initialize_policies`, in declaration order. -/
def policies : List Policy :=
  [energyThresholdPolicy, coolingDuringPeakPolicy, conflictingBarriersPolicy,
   emergencyOverridePolicy, aqiCoolingPolicy]

/-- A safety check dict: id, context predicate, pass message. -/
structure SafetyCheck where
  id : String
  check : Context → Bool
  message : String

/-- The safety check list of `_initialize_safety_checks`. -/
def safetyChecks : List SafetyCheck :=
  [⟨"energy_capacity", fun ctx => decide (ctx.energy_load.getD 0 < 6000),
    "Energy capacity check passed"⟩,
   ⟨"system_health", fun ctx => decide (ctx.system_health.getD "operational" = "operational"),
    "System health check passed"⟩,
   ⟨"sensor_connectivity", fun ctx => decide ((0.8 : ℚ) < ctx.sensor_connectivity.getD 0.95),
    "Sensor connectivity check passed"⟩]

/-- Outcome of the policy loop inside `validate_action`: either the early
DEFER return, or fall-through with the (possibly modified) action and the
accumulated violations and modifications. -/
inductive LoopOut where
  | deferredR (reason : String)
  | proceed (action : Action) (violations : List Violation) (modifications : List Modification)
deriving Inhabited

/-- The `for policy in self.policies` loop of `validate_action`: BLOCK appends
a violation, DEFER returns immediately, MODIFY (when a modification function is
present) replaces the action and records the modification; any other effect
(in particular ALLOW) does nothing. -/
def policyLoop (ctx : Context) : List Policy → Action → List Violation → List Modification → LoopOut
  | [], a, vio, mods => .proceed a vio mods
  | p :: ps, a, vio, mods =>
    if p.condition ctx a then
      if p.effect = "BLOCK" then
        policyLoop ctx ps a (vio ++ [⟨p.id, p.rule, p.reason⟩]) mods
      else if p.effect = "DEFER" then
        .deferredR p.reason
      else if p.effect = "MODIFY" then
        match p.modification with
        | some f => policyLoop ctx ps (f a) vio (mods ++ [⟨p.id, p.reason⟩])
        | none => policyLoop ctx ps a vio mods
      else
        policyLoop ctx ps a vio mods
    else
      policyLoop ctx ps a vio mods

/-- The safety results list built by `validate_action`. -/
def safetyResults (ctx : Context) : List SafetyResult :=
  safetyChecks.map fun c =>
    if c.check ctx then ⟨c.id, true, c.message⟩
    else ⟨c.id, false, "Safety check failed: " ++ c.id⟩

/-- The value `all(r["passed"] for r in safety_results)`. -/
def allSafe (ctx : Context) : Bool :=
  (safetyResults ctx).all (·.passed)

/-- Result dict of `validate_action`.  The DEFER early return produces a dict
of a different shape: `{"valid": False, "action": "DEFER", "reason": ...}`,
with no violations, modifications or safety-check list. -/
inductive ValidationResult where
  | deferredR (reason : String)
  | full (valid : Bool) (violations : List Violation) (modifications : List Modification)
      (safety_checks : List SafetyResult) (action : Action)
deriving DecidableEq, Inhabited

/-- The "valid" entry of a `validate_action` result (False on the DEFER path). -/
def ValidationResult.valid : ValidationResult → Bool
  | .deferredR _ => false
  | .full v _ _ _ _ => v

/-- `PolicyEngine.validate_action`. -/
def validateAction (a : Action) (ctx : Context) : ValidationResult :=
  match policyLoop ctx policies a [] [] with
  | .deferredR r => .deferredR r
  | .proceed a1 vio mods =>
    .full (vio.isEmpty && allSafe ctx) vio mods (safetyResults ctx) a1

/-- The validation pass of `resolve_conflicts`: keep the returned action of
every validation with `valid = true`; blocked and deferred actions are dropped. -/
def validatedActions (actions : List Action) (ctx : Context) : List Action :=
  actions.filterMap fun a =>
    match validateAction a ctx with
    | .full true _ _ _ a1 => some a1
    | _ => none

/-- Clipping performed by the capacity stage on a CRITICAL action:
`{**action, "energy_impact_mw": available - cumulative, "scope_reduced": True}`. -/
def clipTo (a : Action) (v : ℚ) : Action :=
  { a with energy_impact_mw := v, scope_reduced := true }

/-- Total energy impact of a list of actions. -/
def sumImpact (l : List Action) : ℚ :=
  (l.map (·.energy_impact_mw)).sum

/-- The greedy accept loop of `_resolve_energy_conflict`: accept while the
running total stays within `available`; at the first overflow, a CRITICAL
action is clipped to the remaining capacity and the loop stops, while a
non-CRITICAL action is skipped and the loop continues. -/
def energyGreedy (avail : ℚ) : List Action → ℚ → List Action
  | [], _ => []
  | a :: rest, cum =>
    if cum + a.energy_impact_mw ≤ avail then
      a :: energyGreedy avail rest (cum + a.energy_impact_mw)
    else if a.priority = "CRITICAL" then
      [clipTo a (avail - cum)]
    else
      energyGreedy avail rest cum

/-- `PolicyEngine._resolve_energy_conflict`. -/
def resolveEnergyConflict (actions : List Action) (ctx : Context) : List Action :=
  let available := 6000 - ctx.energy_load.getD 4500
  if sumImpact actions ≤ available then actions
  else energyGreedy available (sortByRank actions) 0

/-- First occurrences, in order, of the zone keys of a list: the key order of
the Python dict built by `_resolve_zone_conflict`. -/
def firstKeys : List String → List String
  | [] => []
  | z :: t => z :: (firstKeys t).filter (· ≠ z)

/-- Representative chosen by `_resolve_zone_conflict` for one zone group:
a singleton group passes through; a larger group is sorted by priority rank
(stable) and its first element is taken. -/
def zonePick (actions : List Action) (z : String) : Option Action :=
  match actions.filter (fun a => a.zones = z) with
  | [] => none
  | [a] => some a
  | g => some (sortByRank g).headI

/-- `PolicyEngine._resolve_zone_conflict`. -/
def resolveZoneConflict (actions : List Action) : List Action :=
  (firstKeys (actions.map (·.zones))).filterMap (zonePick actions)

/-- The registered mutually-exclusive action-name pairs of
`_resolve_action_conflict` (a Python set literal; modelled in declaration
order — the result below is order independent). -/
def conflictPairs : List (String × String) :=
  [("RAISE_COASTAL_BARRIERS", "LOWER_COASTAL_BARRIERS"),
   ("ACTIVATE_COOLING", "DEACTIVATE_COOLING")]

/-- Canonical key `tuple(sorted([x, y]))` for a resolved pair. -/
def pairKey (x y : String) : String × String :=
  if x ≤ y then (x, y) else (y, x)

/-- The inner `for conflict_pair in conflicts` loop of
`_resolve_action_conflict` for one action: returns the conflict key exactly
when the loop appends the action itself and breaks (`conflict_found = True`),
and `none` when the loop falls through with `conflict_found = False`. -/
def pairStep (actions : List Action) (seen : List (String × String)) (a : Action) :
    Option (String × String) :=
  conflictPairs.findSome? fun pq =>
    if a.name = pq.1 ∨ a.name = pq.2 then
      match actions.find? (fun b =>
          (decide (b.name = pq.1) || decide (b.name = pq.2)) && decide (¬ b.name = a.name)) with
      | some other =>
        let key := pairKey a.name other.name
        if key ∉ seen ∧ priorityRank a ≤ priorityRank other then some key else none
      | none => none
    else none

/-- `PolicyEngine._resolve_action_conflict`: fold over the actions carrying
the `resolved` list and the `seen_conflicts` set; when the inner loop found a
conflict the action was already appended inside it, otherwise the trailing
`if not conflict_found` appends it. -/
def resolveActionConflict (actions : List Action) : List Action :=
  (actions.foldl
    (fun st a =>
      match pairStep actions st.2 a with
      | some key => (st.1 ++ [a], st.2 ++ [key])
      | none => (st.1 ++ [a], st.2))
    (([], []) : List Action × List (String × String))).1

/-- `PolicyEngine.resolve_conflicts`: validate, then apply the energy, zone
and action-pair stages in order. -/
def resolveConflicts (actions : List Action) (ctx : Context) : List Action :=
  resolveActionConflict
    (resolveZoneConflict
      (resolveEnergyConflict (validatedActions actions ctx) ctx))

/-! ### The agents and the coordinator
(backend/app/viewmodels/ml/multi_agent_orchestrator.py) -/

/-- One agent analysis dict.  `numbers` holds the agent-specific numeric
entries in their dict order (e.g. `current_temp`, `anomalies_detected`);
`current_risk` is the extra string entry of the flood agent. -/
structure Analysis where
  agent : String
  risk_level : String
  numbers : List (String × ℚ)
  current_risk : Option String := none
  recommended_actions : List Action
deriving DecidableEq, Inhabited

/-- Python's `round(x, 1)`: nearest multiple of 1/10, ties to even. -/
def round1 (q : ℚ) : ℚ :=
  let y := q * 10
  let f := ⌊y⌋
  let r := y - f
  (if r < 1/2 then (f : ℚ) else if 1/2 < r then (f : ℚ) + 1
   else if Even f then (f : ℚ) else (f : ℚ) + 1) / 10

/-- Whether the heat forecast is present and its statistics maximum exceeds
`th`: the Python expression `forecast and
forecast.get("statistics", {}).get("maximum", 0) > th`. -/
def forecastAbove (ctx : Context) (th : ℚ) : Bool :=
  match ctx.temp_forecast with
  | some f => decide (th < f.maximum)
  | none => false

/-- `HeatAgent._get_actions`. -/
def heatAgentActions (risk : String) (temp : ℚ) : List Action :=
  if risk = "Critical" then
    [{ name := "ACTIVATE_ALL_COOLING", priority := "CRITICAL", zones := "All hotspot zones",
       energy_impact_mw := 300, reason := s!"Temperature {temp} C exceeds critical threshold" }]
  else if risk = "High" then
    [{ name := "ACTIVATE_PRIORITY_COOLING", priority := "HIGH", zones := "High-priority zones",
       energy_impact_mw := 150, reason := s!"Temperature {temp} C approaching critical" }]
  else []

/-- `HeatAgent.analyze`: thresholds `temp > 38` Critical, `temp > 35` High,
`temp > 32` Medium, otherwise Low, each of the first two also triggered by the
forecast maximum. -/
def heatAnalyze (ctx : Context) : Analysis :=
  let temp := ctx.temperature.getD 30
  let risk :=
    if 38 < temp ∨ forecastAbove ctx 38 = true then "Critical"
    else if 35 < temp ∨ forecastAbove ctx 35 = true then "High"
    else if 32 < temp then "Medium"
    else "Low"
  { agent := "Heat Agent", risk_level := risk,
    numbers := [("current_temp", temp),
                ("anomalies_detected", ctx.temp_anomaly_count.getD 0)],
    recommended_actions := heatAgentActions risk temp }

/-- `FloodAgent._get_actions`. -/
def floodAgentActions (risk : String) : List Action :=
  if risk = "High" then
    [{ name := "RAISE_COASTAL_BARRIERS", priority := "CRITICAL", zones := "Coastal zones",
       energy_impact_mw := 200, reason := "High flood risk detected" }]
  else if risk = "Medium" then
    [{ name := "PREPARE_BARRIERS", priority := "MEDIUM", zones := "Coastal zones",
       energy_impact_mw := 0, reason := "Medium flood risk - prepare for activation" }]
  else []

/-- `FloodAgent.analyze`. -/
def floodAnalyze (ctx : Context) : Analysis :=
  let floodRisk := ctx.flood_risk.getD "Low"
  let risk :=
    if ctx.flood_forecast_overall_risk = some "High" then "High" else floodRisk
  { agent := "Flood Agent", risk_level := risk,
    numbers := [("anomalies_detected", ctx.rainfall_anomaly_count.getD 0)],
    current_risk := some floodRisk,
    recommended_actions := floodAgentActions risk }

/-- `AQIAgent._get_actions`. -/
def aqiAgentActions (risk : String) (aqi : ℚ) : List Action :=
  if risk = "Critical" then
    [{ name := "ACTIVATE_ALL_AIR_PURIFIERS", priority := "CRITICAL", zones := "All zones",
       energy_impact_mw := 250, reason := s!"AQI {aqi} exceeds critical threshold" }]
  else if risk = "High" then
    [{ name := "ACTIVATE_PRIORITY_PURIFIERS", priority := "HIGH", zones := "High-traffic zones",
       energy_impact_mw := 150, reason := s!"AQI {aqi} is unhealthy" }]
  else []

/-- `AQIAgent.analyze`. -/
def aqiAnalyze (ctx : Context) : Analysis :=
  let aqi := ctx.aqi.getD 80
  let risk :=
    if 200 < aqi then "Critical"
    else if 150 < aqi then "High"
    else if 100 < aqi then "Medium"
    else "Low"
  { agent := "AQI Agent", risk_level := risk,
    numbers := [("current_aqi", aqi)],
    recommended_actions := aqiAgentActions risk aqi }

/-- `EnergyAgent._get_actions` (note the High branch emits a MEDIUM action). -/
def energyAgentActions (risk : String) (util : ℚ) : List Action :=
  if risk = "Critical" then
    [{ name := "REDUCE_NON_CRITICAL_LOAD", priority := "CRITICAL", zones := "All zones",
       energy_impact_mw := -200, reason := s!"Grid utilization {round1 (util * 100)}% - critical" }]
  else if risk = "High" then
    [{ name := "OPTIMIZE_ENERGY_USAGE", priority := "MEDIUM", zones := "All zones",
       energy_impact_mw := -100, reason := s!"Grid utilization {round1 (util * 100)}% - high" }]
  else []

/-- `EnergyAgent.analyze`. -/
def energyAnalyze (ctx : Context) : Analysis :=
  let load := ctx.energy_load.getD 4500
  let util := load / 6000
  let risk :=
    if (0.95 : ℚ) < util then "Critical"
    else if (0.85 : ℚ) < util then "High"
    else if (0.75 : ℚ) < util then "Medium"
    else "Low"
  { agent := "Energy Agent", risk_level := risk,
    numbers := [("current_load_mw", load),
                ("utilization", round1 (util * 100)),
                ("available_capacity_mw", 6000 - load)],
    recommended_actions := energyAgentActions risk util }

/-- One entry of the result's `agents` list. -/
structure AgentReport where
  name : String
  priority : Nat
  status : String
  analysis : Analysis
deriving DecidableEq, Inhabited

/-- The `coordination_summary` dict. -/
structure Summary where
  active_agents : Nat
  total_recommendations : Nat
  critical_actions : Nat
  high_priority_actions : Nat
deriving DecidableEq, Inhabited

/-- The dict returned by `CoordinatorBrain.orchestrate`. -/
structure OrchestrationResult where
  city : String
  timestamp : String
  orchestration_status : String
  agents : List AgentReport
  conflicts_detected : ℤ
  resolved_actions : List Action
  total_energy_impact_mw : ℚ
  coordination_summary : Summary
deriving DecidableEq, Inhabited

/-- The dedup pass of `_simple_resolve` over the already-sorted list, carrying
the `seen_actions` key set (keys `f"{action}_{zones}"`). -/
def dedupByKey : List Action → List String → List Action
  | [], _ => []
  | a :: t, seen =>
    let key := a.name ++ "_" ++ a.zones
    if key ∈ seen then dedupByKey t seen else a :: dedupByKey t (key :: seen)

/-- `CoordinatorBrain._simple_resolve`: stable sort by priority, then drop
actions whose name-zone key was already seen. -/
def simpleResolve (actions : List Action) : List Action :=
  dedupByKey (sortByRank actions) []

/-- `all_actions`: the concatenation of every agent's recommended actions, in
agent priority order. -/
def allActionsOf (analyses : List Analysis) : List Action :=
  (analyses.map (·.recommended_actions)).flatten

/-- The analyses of the four agents.  The source sorts its agent list by
priority before the loop; the priorities are 1, 2, 3, 4 in declaration order,
so the loop order equals declaration order. -/
def buildAnalyses (ctx : Context) : List Analysis :=
  [heatAnalyze ctx, floodAnalyze ctx, aqiAnalyze ctx, energyAnalyze ctx]

/-- `CoordinatorBrain.orchestrate`, after the context has been assembled from
the collaborator modules.  `ctx` models the assembled context snapshot, `now`
the value of `datetime.now().isoformat()` at this call, `usePolicyEngine`
whether a policy engine was passed (else `_simple_resolve` is used).  Each
entry of `agents` pairs an agent with its own analysis — the source looks the
analysis up by the agent's unique name — and every status is `"active"`, the
only value the orchestrator ever assigns. -/
def orchestrate (ctx : Context) (city now : String) (usePolicyEngine : Bool) :
    OrchestrationResult :=
  let analyses := buildAnalyses ctx
  let allActions := allActionsOf analyses
  let resolved :=
    if usePolicyEngine then resolveConflicts allActions ctx else simpleResolve allActions
  { city := city
    timestamp := now
    orchestration_status := "active"
    agents := [⟨"Heat Agent", 1, "active", heatAnalyze ctx⟩,
               ⟨"Flood Agent", 2, "active", floodAnalyze ctx⟩,
               ⟨"AQI Agent", 3, "active", aqiAnalyze ctx⟩,
               ⟨"Energy Agent", 4, "active", energyAnalyze ctx⟩]
    conflicts_detected := (allActions.length : ℤ) - resolved.length
    resolved_actions := resolved
    total_energy_impact_mw := sumImpact resolved
    coordination_summary :=
      ⟨4, resolved.length,
       (resolved.filter (fun a => decide (a.priority = "CRITICAL"))).length,
       (resolved.filter (fun a => decide (a.priority = "HIGH"))).length⟩ }

/-- An orchestration result with its timestamp field blanked, for comparing
two runs up to the clock reading. -/
def stripTimestamp (r : OrchestrationResult) : OrchestrationResult :=
  { r with timestamp := "" }

/-- An agent whose `analyze` may raise: the Python call
`analysis = agent.analyze(context)` inside the orchestration loop, modelled
with `Except` for the exception. -/
structure AgentE where
  name : String
  priority : Nat
  analyzeE : Context → Except String Analysis

/-- The `for agent in sorted(self.agents, ...)` loop of `orchestrate`: each
`analyze` is called in turn with no surrounding try/except, so the first
exception propagates and the loop never finishes. -/
def runAgentsE : List AgentE → Context → Except String (List Analysis)
  | [], _ => .ok []
  | ag :: rest, ctx =>
    match ag.analyzeE ctx with
    | .error e => .error e
    | .ok an =>
      match runAgentsE rest ctx with
      | .error e => .error e
      | .ok l => .ok (an :: l)

/-- `CoordinatorBrain.orchestrate` over an arbitrary agent list (assumed
already in priority order) whose `analyze` calls may raise: an exception in
any agent's `analyze` propagates out of `orchestrate` uncaught. -/
def orchestrateE (agents : List AgentE) (ctx : Context) (city now : String)
    (usePolicyEngine : Bool) : Except String OrchestrationResult :=
  match runAgentsE agents ctx with
  | .error e => .error e
  | .ok analyses =>
    let allActions := allActionsOf analyses
    let resolved :=
      if usePolicyEngine then resolveConflicts allActions ctx else simpleResolve allActions
    .ok { city := city
          timestamp := now
          orchestration_status := "active"
          agents := agents.map (fun a =>
            ⟨a.name, a.priority, "active",
             (analyses.find? (fun an => decide (an.agent = a.name))).getD default⟩)
          conflicts_detected := (allActions.length : ℤ) - resolved.length
          resolved_actions := resolved
          total_energy_impact_mw := sumImpact resolved
          coordination_summary :=
            ⟨agents.length, resolved.length,
             (resolved.filter (fun a => decide (a.priority = "CRITICAL"))).length,
             (resolved.filter (fun a => decide (a.priority = "HIGH"))).length⟩ }

/-- Derivation relation of the capacity stage: an output action is an input
action unchanged, or a CRITICAL input action with its impact strictly lowered
and `scope_reduced` set. -/
def DerivClip (a b : Action) : Prop :=
  b = a ∨ (a.priority = "CRITICAL" ∧ ∃ v, v < a.energy_impact_mw ∧ b = clipTo a v)

/-- Derivation of an output list from an input list: some sub-multiset of the
input, aligned elementwise by the relation `R` with the output. -/
def DerivList (R : Action → Action → Prop) (input out : List Action) : Prop :=
  ∃ t, t.Subperm input ∧ List.Forall₂ R t out

/-- An action survives validation untouched: the full result is valid and
returns the action itself. -/
def Survives (ctx : Context) (a : Action) : Prop :=
  ∃ vio mods s, validateAction a ctx = .full true vio mods s a


/-- Failure of at least one global safety check: energy load (default 0) at or
above 6000, system health (default "operational") not operational, or sensor
connectivity (default 0.95) at most 0.8. -/
def SafetyFailure (ctx : Context) : Prop :=
  6000 ≤ ctx.energy_load.getD 0 ∨
  ctx.system_health.getD "operational" ≠ "operational" ∨
  ctx.sensor_connectivity.getD 0.95 ≤ (0.8 : ℚ)

/-- Full derivation relation of `resolve_conflicts`: an output action is an
input candidate unchanged, or rewritten by the `aqi_cooling_conflict` MODIFY
policy (name and reason only), or — for a CRITICAL candidate — clipped by the
capacity stage (impact strictly lowered and `scope_reduced` set), or both.
`aqiModify` preserves priority and impact, so the conditions of the combined
case are stated on the candidate itself. -/
def Derives (a b : Action) : Prop :=
  b = a ∨ b = aqiModify a ∨
  (a.priority = "CRITICAL" ∧ ∃ v, v < a.energy_impact_mw ∧ b = clipTo a v) ∨
  (a.priority = "CRITICAL" ∧ ∃ v, v < a.energy_impact_mw ∧ b = clipTo (aqiModify a) v)

/-! Concrete inputs used by the per-claim theorems. -/

/-- A CRITICAL cooling action: both the `cooling_during_peak` DEFER policy and
the `emergency_override` ALLOW policy match it under `c1Ctx`. -/
def c1Action : Action :=
  ⟨"ACTIVATE_COOLING", "CRITICAL", "Zone A", 100, "cooling", false⟩

/-- Energy load 5500 of 6000 (91.7% > 90%). -/
def c1Ctx : Context := { energy_load := some 5500 }

def c2Raise : Action :=
  ⟨"RAISE_COASTAL_BARRIERS", "CRITICAL", "Coastal zones", 0, "raise", false⟩

def c2Lower : Action :=
  ⟨"LOWER_COASTAL_BARRIERS", "LOW", "Inland zones", 0, "lower", false⟩

/-- Energy load 5000: neither barrier policy blocks, no DEFER, no MODIFY; both
barrier actions validate and reach the conflict pipeline. -/
def c2Ctx : Context := { energy_load := some 5000 }

/-- Energy load 6100 exceeds max capacity: available = −100. -/
def c3Ctx : Context := { energy_load := some 6100 }

def c3wAct : Action := ⟨"A", "CRITICAL", "z1", 300, "a", false⟩

def c3wCtx : Context := { energy_load := some 5500 }

def c4High : Action := ⟨"H", "HIGH", "z1", 150, "h", false⟩

def c4Med : Action := ⟨"M", "MEDIUM", "z2", 50, "m", false⟩

/-- Energy load 5900: available = 100. -/
def c4Ctx : Context := { energy_load := some 5900 }

/-- A cooling action that survives validation and is rewritten by the
`aqi_cooling_conflict` MODIFY policy under `c5Ctx`. -/
def c5Act : Action := ⟨"ACTIVATE_COOLING", "HIGH", "Zone B", 100, "r", false⟩

/-- AQI 250 (> 200) with moderate energy load 4000. -/
def c5Ctx : Context := { aqi := some 250, energy_load := some 4000 }

def c5wAct : Action := ⟨"A", "HIGH", "z1", 100, "r", false⟩

def c5wCtx : Context := { aqi := some 100, energy_load := some 5000 }

def c6Ctx : Context := { temperature := some 39, energy_load := some 4500 }

def c7Act : Action := ⟨"ACTIVATE_COOLING", "HIGH", "Zone A", 100, "c", false⟩

/-- Energy load 6500: the `energy_capacity` safety check fails, and the
`cooling_during_peak` DEFER policy matches cooling actions. -/
def c7Ctx : Context := { energy_load := some 6500 }

def c7wAct : Action := ⟨"SOME_ACTION", "LOW", "z", 10, "w", false⟩

def c7wCtx : Context := { system_health := some "degraded" }

def c8Ok1 : AgentE := ⟨"Heat Agent", 1, fun ctx => .ok (heatAnalyze ctx)⟩

/-- An agent whose `analyze` raises. -/
def c8Fail : AgentE := ⟨"Flood Agent", 2, fun _ => .error "sensor offline"⟩

def c8Ok2 : AgentE := ⟨"AQI Agent", 3, fun ctx => .ok (aqiAnalyze ctx)⟩

def c8Ctx : Context := {}

def c8wFail : AgentE := ⟨"Flood Agent", 2, fun _ => .error "boom"⟩

def c9Ctx38 : Context := { temperature := some 38 }

def c9Ctx32 : Context := { temperature := some 32 }

def c9wCtx : Context := { temperature := some 40 }

/-! ### Lemmas -/

/-! ### Helper lemmas: sorting -/

theorem insertByRank_perm (a : Action) (l : List Action) :
    (insertByRank a l).Perm (a :: l) := by
  induction l with
  | nil => simp [insertByRank]
  | cons b t ih =>
    simp only [insertByRank]
    split
    · exact ((ih.cons b).trans (List.Perm.swap a b t))
    · exact List.Perm.refl _

theorem sortByRank_perm (l : List Action) : (sortByRank l).Perm l := by
  induction l with
  | nil => simp [sortByRank]
  | cons a t ih => exact (insertByRank_perm a (sortByRank t)).trans (ih.cons a)

theorem mem_sortByRank {b : Action} {l : List Action} :
    b ∈ sortByRank l ↔ b ∈ l :=
  (sortByRank_perm l).mem_iff

/-! ### Helper lemmas: the policy loop -/

theorem policyLoop_append (ctx : Context) (xs ys : List Policy) (a : Action)
    (vio : List Violation) (mods : List Modification) :
    policyLoop ctx (xs ++ ys) a vio mods =
      match policyLoop ctx xs a vio mods with
      | .deferredR r => .deferredR r
      | .proceed a1 vio1 mods1 => policyLoop ctx ys a1 vio1 mods1 := by
  induction xs generalizing a vio mods with
  | nil => simp [policyLoop]
  | cons p ps ih =>
    simp only [List.cons_append, policyLoop]
    split
    · split
      · exact ih ..
      · split
        · rfl
        · split
          · split
            · exact ih ..
            · exact ih ..
          · exact ih ..
    · exact ih ..

theorem policyLoop_noModifyEffect (ctx : Context) (ps : List Policy)
    (hps : ∀ p ∈ ps, p.effect ≠ "MODIFY") (a : Action)
    (vio : List Violation) (mods : List Modification) :
    (∃ r, policyLoop ctx ps a vio mods = .deferredR r) ∨
      (∃ v m, policyLoop ctx ps a vio mods = .proceed a v m) := by
  induction ps generalizing vio mods with
  | nil => exact Or.inr ⟨vio, mods, rfl⟩
  | cons p ps ih =>
    have hp : p.effect ≠ "MODIFY" := hps p (List.mem_cons_self p ps)
    have hps2 : ∀ q ∈ ps, q.effect ≠ "MODIFY" := fun q hq => hps q (List.mem_cons_of_mem p hq)
    cases hc : p.condition ctx a with
    | false =>
      simp only [policyLoop, hc, Bool.false_eq_true, if_false]
      exact ih hps2 ..
    | true =>
      by_cases hB : p.effect = "BLOCK"
      · simp only [policyLoop, hc, if_true, if_pos hB]
        exact ih hps2 ..
      · by_cases hD : p.effect = "DEFER"
        · simp only [policyLoop, hc, if_true, if_neg hB, if_pos hD]
          exact Or.inl ⟨p.reason, rfl⟩
        · simp only [policyLoop, hc, if_true, if_neg hB, if_neg hD, if_neg hp]
          exact ih hps2 ..

/-- The first four policies carry no MODIFY effect. -/
theorem firstFour_noModify :
    ∀ p ∈ [energyThresholdPolicy, coolingDuringPeakPolicy, conflictingBarriersPolicy,
      emergencyOverridePolicy], p.effect ≠ "MODIFY" := by
  intro p hp
  simp only [List.mem_cons, List.not_mem_nil, or_false] at hp
  rcases hp with rfl | rfl | rfl | rfl
  · simp [energyThresholdPolicy]
  · simp [coolingDuringPeakPolicy]
  · simp [conflictingBarriersPolicy]
  · simp [emergencyOverridePolicy]

theorem policies_split :
    policies = [energyThresholdPolicy, coolingDuringPeakPolicy, conflictingBarriersPolicy,
      emergencyOverridePolicy] ++ [aqiCoolingPolicy] := rfl

theorem policyLoop_aqi_of_true {ctx : Context} {a : Action}
    (hc : aqiCoolingPolicy.condition ctx a = true)
    (v : List Violation) (m : List Modification) :
    policyLoop ctx [aqiCoolingPolicy] a v m =
      .proceed (aqiModify a) v (m ++ [⟨aqiCoolingPolicy.id, aqiCoolingPolicy.reason⟩]) := by
  simp only [policyLoop, hc]
  rfl

theorem policyLoop_aqi_of_false {ctx : Context} {a : Action}
    (hc : aqiCoolingPolicy.condition ctx a = false)
    (v : List Violation) (m : List Modification) :
    policyLoop ctx [aqiCoolingPolicy] a v m = .proceed a v m := by
  simp only [policyLoop, hc]
  rfl

/-- Shape of every `validate_action` result: either the DEFER early return, or
a full result whose returned action is the input action, possibly rewritten
once by the `aqi_cooling_conflict` MODIFY policy. -/
theorem validateAction_shape (a : Action) (ctx : Context) :
    (∃ r, validateAction a ctx = .deferredR r) ∨
      (∃ v vio mods s a1, validateAction a ctx = .full v vio mods s a1 ∧
        (a1 = a ∨ a1 = aqiModify a)) := by
  unfold validateAction
  rw [policies_split, policyLoop_append]
  rcases policyLoop_noModifyEffect ctx _ firstFour_noModify a [] [] with ⟨r, hr⟩ | ⟨v, m, hvm⟩
  · rw [hr]; exact Or.inl ⟨r, rfl⟩
  · rw [hvm]
    dsimp only
    cases hc : aqiCoolingPolicy.condition ctx a with
    | true =>
      rw [policyLoop_aqi_of_true hc]
      exact Or.inr ⟨_, _, _, _, _, rfl, Or.inr rfl⟩
    | false =>
      rw [policyLoop_aqi_of_false hc]
      exact Or.inr ⟨_, _, _, _, _, rfl, Or.inl rfl⟩

/-- When the context's AQI (default 0) is at most 200, the MODIFY policy
cannot fire, so a full result returns the input action unchanged. -/
theorem validateAction_lowAqi {ctx : Context} (hAqi : ctx.aqi.getD 0 ≤ 200) (a : Action) :
    (∃ r, validateAction a ctx = .deferredR r) ∨
      (∃ v vio mods s, validateAction a ctx = .full v vio mods s a) := by
  unfold validateAction
  rw [policies_split, policyLoop_append]
  rcases policyLoop_noModifyEffect ctx _ firstFour_noModify a [] [] with ⟨r, hr⟩ | ⟨v, m, hvm⟩
  · rw [hr]; exact Or.inl ⟨r, rfl⟩
  · rw [hvm]
    dsimp only
    have hcond : aqiCoolingPolicy.condition ctx a = false := by
      simp only [aqiCoolingPolicy, Bool.and_eq_false_iff, decide_eq_false_iff_not, not_lt]
      exact Or.inr hAqi
    rw [policyLoop_aqi_of_false hcond]
    exact Or.inr ⟨_, _, _, _, rfl⟩

/-! ### Helper lemmas: the action-pair stage is the identity -/

theorem actionConflictFold_acc (actions : List Action) (l : List Action)
    (res : List Action) (seen : List (String × String)) :
    (l.foldl
      (fun st a =>
        match pairStep actions st.2 a with
        | some key => (st.1 ++ [a], st.2 ++ [key])
        | none => (st.1 ++ [a], st.2))
      (res, seen)).1 = res ++ l := by
  induction l generalizing res seen with
  | nil => simp
  | cons a t ih =>
    simp only [List.foldl_cons]
    cases h : pairStep actions seen a with
    | none => simp only [h]; rw [ih]; simp
    | some key => simp only [h]; rw [ih]; simp

/-- The body of `_resolve_action_conflict` appends every action exactly once —
either inside the pair loop (when it wins and the pair is unseen) or through
the trailing `if not conflict_found` append — so the function is the identity. -/
theorem actionConflict_identity (l : List Action) : resolveActionConflict l = l := by
  unfold resolveActionConflict
  rw [actionConflictFold_acc l l [] []]
  simp

/-! ### Helper lemmas: sums of energy impacts -/

theorem sumImpact_nil : sumImpact [] = 0 := rfl

theorem sumImpact_cons (a : Action) (l : List Action) :
    sumImpact (a :: l) = a.energy_impact_mw + sumImpact l := by
  simp [sumImpact]

theorem sumImpact_perm {l l' : List Action} (h : l.Perm l') : sumImpact l = sumImpact l' := by
  unfold sumImpact
  exact (h.map (·.energy_impact_mw)).sum_eq

theorem sumImpact_sublist_le {u m : List Action} (h : u.Sublist m)
    (hpos : ∀ a ∈ m, 0 ≤ a.energy_impact_mw) : sumImpact u ≤ sumImpact m := by
  induction h with
  | slnil => exact le_refl _
  | cons a h ih =>
    rename_i m1 m2
    have h1 : 0 ≤ a.energy_impact_mw := hpos a (List.mem_cons_self a m2)
    have h2 := ih (fun b hb => hpos b (List.mem_cons_of_mem a hb))
    rw [sumImpact_cons]
    linarith
  | cons₂ a h ih =>
    rename_i m1 m2
    have h2 := ih (fun b hb => hpos b (List.mem_cons_of_mem a hb))
    rw [sumImpact_cons, sumImpact_cons]
    linarith

theorem sumImpact_subperm_le {u m : List Action} (h : u.Subperm m)
    (hpos : ∀ a ∈ m, 0 ≤ a.energy_impact_mw) : sumImpact u ≤ sumImpact m := by
  obtain ⟨w, hwp, hws⟩ := h
  calc sumImpact u = sumImpact w := (sumImpact_perm hwp).symm
    _ ≤ sumImpact m := sumImpact_sublist_le hws hpos

theorem sumImpact_nonneg {l : List Action} (hpos : ∀ a ∈ l, 0 ≤ a.energy_impact_mw) :
    0 ≤ sumImpact l :=
  List.sum_nonneg (by simpa using hpos)

/-! ### Helper lemmas: the capacity stage -/

theorem energyGreedy_sum (avail : ℚ) :
    ∀ (l : List Action) (cum : ℚ), cum ≤ avail →
      cum + sumImpact (energyGreedy avail l cum) ≤ avail := by
  intro l
  induction l with
  | nil => intro cum hcum; simpa [energyGreedy, sumImpact_nil] using hcum
  | cons a rest ih =>
    intro cum hcum
    simp only [energyGreedy]
    by_cases hfit : cum + a.energy_impact_mw ≤ avail
    · rw [if_pos hfit, sumImpact_cons]
      have := ih (cum + a.energy_impact_mw) hfit
      linarith
    · rw [if_neg hfit]
      by_cases hcrit : a.priority = "CRITICAL"
      · rw [if_pos hcrit]
        simp only [sumImpact_cons, sumImpact_nil, clipTo]
        linarith
      · rw [if_neg hcrit]
        exact ih cum hcum

theorem resolveEnergyConflict_sum {ctx : Context} (l : List Action)
    (h : ctx.energy_load.getD 4500 ≤ 6000) :
    sumImpact (resolveEnergyConflict l ctx) ≤ 6000 - ctx.energy_load.getD 4500 := by
  unfold resolveEnergyConflict
  by_cases hfit : sumImpact l ≤ 6000 - ctx.energy_load.getD 4500
  · rw [if_pos hfit]; exact hfit
  · rw [if_neg hfit]
    have h0 : (0 : ℚ) ≤ 6000 - ctx.energy_load.getD 4500 := by linarith
    have := energyGreedy_sum (6000 - ctx.energy_load.getD 4500) (sortByRank l) 0 h0
    linarith

theorem energyGreedy_deriv (avail : ℚ) :
    ∀ (l : List Action) (cum : ℚ),
      ∃ t, t.Sublist l ∧ List.Forall₂ DerivClip t (energyGreedy avail l cum) := by
  intro l
  induction l with
  | nil => exact fun _ => ⟨[], List.Sublist.refl _, List.Forall₂.nil⟩
  | cons a rest ih =>
    intro cum
    simp only [energyGreedy]
    by_cases hfit : cum + a.energy_impact_mw ≤ avail
    · rw [if_pos hfit]
      obtain ⟨t, hts, htf⟩ := ih (cum + a.energy_impact_mw)
      exact ⟨a :: t, hts.cons₂ a, List.Forall₂.cons (Or.inl rfl) htf⟩
    · rw [if_neg hfit]
      by_cases hcrit : a.priority = "CRITICAL"
      · rw [if_pos hcrit]
        refine ⟨[a], (List.nil_sublist rest).cons₂ a,
          List.Forall₂.cons (Or.inr ⟨hcrit, avail - cum, by linarith, rfl⟩) List.Forall₂.nil⟩
      · rw [if_neg hcrit]
        obtain ⟨t, hts, htf⟩ := ih cum
        exact ⟨t, hts.cons a, htf⟩

theorem resolveEnergyConflict_deriv (l : List Action) (ctx : Context) :
    ∃ t, t.Subperm l ∧ List.Forall₂ DerivClip t (resolveEnergyConflict l ctx) := by
  unfold resolveEnergyConflict
  by_cases hfit : sumImpact l ≤ 6000 - ctx.energy_load.getD 4500
  · rw [if_pos hfit]
    refine ⟨l, List.Subperm.refl l, ?_⟩
    rw [List.forall₂_same]
    exact fun a _ => Or.inl rfl
  · rw [if_neg hfit]
    obtain ⟨t, hts, htf⟩ := energyGreedy_deriv (6000 - ctx.energy_load.getD 4500) (sortByRank l) 0
    exact ⟨t, hts.subperm.trans (sortByRank_perm l).subperm, htf⟩

theorem energyGreedy_mem (avail : ℚ) :
    ∀ (l : List Action) (cum : ℚ) (b : Action), b ∈ energyGreedy avail l cum →
      b ∈ l ∨ ∃ a ∈ l, a.priority = "CRITICAL" ∧ ∃ v, b = clipTo a v := by
  intro l
  induction l with
  | nil => simp [energyGreedy]
  | cons a rest ih =>
    intro cum b hb
    simp only [energyGreedy] at hb
    by_cases hfit : cum + a.energy_impact_mw ≤ avail
    · rw [if_pos hfit] at hb
      rcases List.mem_cons.1 hb with rfl | hb2
      · exact Or.inl (List.mem_cons_self ..)
      · rcases ih _ b hb2 with h | ⟨c, hc, hcr, v, hv⟩
        · exact Or.inl (List.mem_cons_of_mem a h)
        · exact Or.inr ⟨c, List.mem_cons_of_mem a hc, hcr, v, hv⟩
    · rw [if_neg hfit] at hb
      by_cases hcrit : a.priority = "CRITICAL"
      · rw [if_pos hcrit] at hb
        rcases List.mem_singleton.1 hb with rfl
        exact Or.inr ⟨a, List.mem_cons_self .., hcrit, avail - cum, rfl⟩
      · rw [if_neg hcrit] at hb
        rcases ih _ b hb with h | ⟨c, hc, hcr, v, hv⟩
        · exact Or.inl (List.mem_cons_of_mem a h)
        · exact Or.inr ⟨c, List.mem_cons_of_mem a hc, hcr, v, hv⟩

theorem resolveEnergyConflict_mem {l : List Action} {ctx : Context} {b : Action}
    (hb : b ∈ resolveEnergyConflict l ctx) :
    b ∈ l ∨ ∃ a ∈ l, a.priority = "CRITICAL" ∧ ∃ v, b = clipTo a v := by
  unfold resolveEnergyConflict at hb
  by_cases hfit : sumImpact l ≤ 6000 - ctx.energy_load.getD 4500
  · rw [if_pos hfit] at hb; exact Or.inl hb
  · rw [if_neg hfit] at hb
    rcases energyGreedy_mem _ _ _ b hb with h | ⟨a, ha, hcr, v, hv⟩
    · exact Or.inl (mem_sortByRank.1 h)
    · exact Or.inr ⟨a, mem_sortByRank.1 ha, hcr, v, hv⟩

theorem energyGreedy_nonneg (avail : ℚ) :
    ∀ (l : List Action) (cum : ℚ), 0 ≤ cum → cum ≤ avail →
      (∀ a ∈ l, 0 ≤ a.energy_impact_mw) →
      ∀ b ∈ energyGreedy avail l cum, 0 ≤ b.energy_impact_mw := by
  intro l
  induction l with
  | nil => simp [energyGreedy]
  | cons a rest ih =>
    intro cum hcum0 hcum hpos b hb
    have hpa : 0 ≤ a.energy_impact_mw := hpos a (List.mem_cons_self ..)
    have hrest : ∀ c ∈ rest, 0 ≤ c.energy_impact_mw :=
      fun c hc => hpos c (List.mem_cons_of_mem a hc)
    simp only [energyGreedy] at hb
    by_cases hfit : cum + a.energy_impact_mw ≤ avail
    · rw [if_pos hfit] at hb
      rcases List.mem_cons.1 hb with rfl | hb2
      · exact hpa
      · exact ih _ (by linarith) hfit hrest b hb2
    · rw [if_neg hfit] at hb
      by_cases hcrit : a.priority = "CRITICAL"
      · rw [if_pos hcrit] at hb
        rcases List.mem_singleton.1 hb with rfl
        simp only [clipTo]
        linarith
      · rw [if_neg hcrit] at hb
        exact ih _ hcum0 hcum hrest b hb

theorem resolveEnergyConflict_nonneg {l : List Action} {ctx : Context}
    (h0 : (0 : ℚ) ≤ 6000 - ctx.energy_load.getD 4500)
    (hpos : ∀ a ∈ l, 0 ≤ a.energy_impact_mw) :
    ∀ b ∈ resolveEnergyConflict l ctx, 0 ≤ b.energy_impact_mw := by
  intro b hb
  unfold resolveEnergyConflict at hb
  by_cases hfit : sumImpact l ≤ 6000 - ctx.energy_load.getD 4500
  · rw [if_pos hfit] at hb; exact hpos b hb
  · rw [if_neg hfit] at hb
    exact energyGreedy_nonneg _ _ 0 (le_refl 0) h0
      (fun a ha => hpos a (mem_sortByRank.1 ha)) b hb

theorem energyGreedy_negAvail {avail : ℚ} (hav : avail < 0) :
    ∀ l : List Action, (∀ a ∈ l, 0 ≤ a.energy_impact_mw) →
      energyGreedy avail l 0 = [] ∨
        ∃ a ∈ l, a.priority = "CRITICAL" ∧ energyGreedy avail l 0 = [clipTo a avail] := by
  intro l
  induction l with
  | nil => exact fun _ => Or.inl rfl
  | cons a rest ih =>
    intro hpos
    have hpa : 0 ≤ a.energy_impact_mw := hpos a (List.mem_cons_self ..)
    have hfit : ¬ (0 + a.energy_impact_mw ≤ avail) := by linarith
    simp only [energyGreedy, if_neg hfit]
    by_cases hcrit : a.priority = "CRITICAL"
    · rw [if_pos hcrit]
      refine Or.inr ⟨a, List.mem_cons_self .., hcrit, ?_⟩
      norm_num
    · rw [if_neg hcrit]
      rcases ih (fun c hc => hpos c (List.mem_cons_of_mem a hc)) with h | ⟨c, hc, hcr, hres⟩
      · exact Or.inl h
      · exact Or.inr ⟨c, List.mem_cons_of_mem a hc, hcr, hres⟩

/-! ### Helper lemmas: the zone stage -/

theorem mem_firstKeys : ∀ (l : List String) (z : String), z ∈ firstKeys l ↔ z ∈ l := by
  intro l
  induction l with
  | nil => simp [firstKeys]
  | cons a t ih =>
    intro z
    simp only [firstKeys, List.mem_cons, List.mem_filter, ih, decide_eq_true_eq]
    constructor
    · rintro (rfl | ⟨hz, _⟩)
      · exact Or.inl rfl
      · exact Or.inr hz
    · rintro (rfl | hz)
      · exact Or.inl rfl
      · by_cases hza : z = a
        · exact Or.inl hza
        · exact Or.inr ⟨hz, hza⟩

theorem firstKeys_nodup : ∀ l : List String, (firstKeys l).Nodup := by
  intro l
  induction l with
  | nil => simp [firstKeys]
  | cons a t ih =>
    simp only [firstKeys, List.nodup_cons]
    constructor
    · intro hmem
      have := (List.mem_filter.1 hmem).2
      simp at this
    · exact ih.filter _

theorem firstKeys_of_nodup : ∀ l : List String, l.Nodup → firstKeys l = l := by
  intro l
  induction l with
  | nil => exact fun _ => rfl
  | cons a t ih =>
    intro h
    rcases List.nodup_cons.1 h with ⟨ha, ht⟩
    simp only [firstKeys, ih ht]
    rw [List.filter_eq_self.2]
    intro b hb
    simp only [decide_eq_true_eq]
    rintro rfl
    exact ha hb

theorem headI_mem_of_ne_nil {l : List Action} (h : l ≠ []) : l.headI ∈ l := by
  cases l with
  | nil => exact absurd rfl h
  | cons a t => exact List.mem_cons_self ..

theorem zonePick_mem {l : List Action} {z : String} {b : Action}
    (h : zonePick l z = some b) : b ∈ l ∧ b.zones = z := by
  unfold zonePick at h
  rcases hf : l.filter (fun a => decide (a.zones = z)) with _ | ⟨a, _ | ⟨a2, g⟩⟩
  · rw [hf] at h; cases h
  · rw [hf] at h
    have : a ∈ l.filter (fun a => decide (a.zones = z)) := by rw [hf]; exact List.mem_cons_self ..
    have ha := List.mem_filter.1 this
    cases h
    exact ⟨ha.1, by simpa using ha.2⟩
  · rw [hf] at h
    cases h
    have hne : sortByRank (a :: a2 :: g) ≠ [] := by
      intro hcon
      have := sortByRank_perm (a :: a2 :: g)
      rw [hcon] at this
      exact absurd this.symm (by simp)
    have hmem : (sortByRank (a :: a2 :: g)).headI ∈ sortByRank (a :: a2 :: g) :=
      headI_mem_of_ne_nil hne
    have hmem2 : (sortByRank (a :: a2 :: g)).headI ∈ a :: a2 :: g :=
      (sortByRank_perm _).subset hmem
    have : (sortByRank (a :: a2 :: g)).headI ∈ l.filter (fun a => decide (a.zones = z)) := by
      rw [hf]; exact hmem2
    have hb := List.mem_filter.1 this
    exact ⟨hb.1, by simpa using hb.2⟩

theorem resolveZoneConflict_mem {l : List Action} {b : Action}
    (hb : b ∈ resolveZoneConflict l) : b ∈ l := by
  unfold resolveZoneConflict at hb
  obtain ⟨z, _, hz⟩ := List.mem_filterMap.1 hb
  exact (zonePick_mem hz).1

theorem filterMap_zones_nodup (pick : String → Option Action)
    (hz : ∀ z b, pick z = some b → b.zones = z) :
    ∀ ks : List String, ks.Nodup → ((ks.filterMap pick).map (·.zones)).Nodup := by
  intro ks
  induction ks with
  | nil => simp
  | cons k t ih =>
    intro h
    rcases List.nodup_cons.1 h with ⟨hk, ht⟩
    cases hp : pick k with
    | none => simpa [List.filterMap_cons, hp] using ih ht
    | some b =>
      simp only [List.filterMap_cons, hp, List.map_cons, List.nodup_cons]
      refine ⟨?_, ih ht⟩
      intro hmem
      obtain ⟨c, hc, hcz⟩ := List.mem_map.1 hmem
      obtain ⟨z2, hz2, hz2p⟩ := List.mem_filterMap.1 hc
      have h1 := hz _ _ hz2p
      have h2 := hz _ _ hp
      rw [h1] at hcz
      rw [hcz, h2] at hz2
      exact hk hz2

theorem resolveZoneConflict_zones_nodup (l : List Action) :
    ((resolveZoneConflict l).map (·.zones)).Nodup := by
  unfold resolveZoneConflict
  exact filterMap_zones_nodup _ (fun z b h => (zonePick_mem h).2) _
    (firstKeys_nodup _)

theorem resolveZoneConflict_subperm (l : List Action) :
    (resolveZoneConflict l).Subperm l := by
  rw [List.subperm_ext_iff]
  intro b hb
  have h1 : List.count b (resolveZoneConflict l) ≤ 1 :=
    List.nodup_iff_count_le_one.1 ((resolveZoneConflict_zones_nodup l).of_map _) b
  have h2 : 1 ≤ List.count b l := List.count_pos_iff.2 (resolveZoneConflict_mem hb)
  omega

theorem filterMap_congr_mem {α β : Type} {f g : α → Option β} :
    ∀ l : List α, (∀ a ∈ l, f a = g a) → l.filterMap f = l.filterMap g := by
  intro l
  induction l with
  | nil => intro _; rfl
  | cons a t ih =>
    intro h
    rw [List.filterMap_cons, List.filterMap_cons, h a (List.mem_cons_self ..),
      ih (fun b hb => h b (List.mem_cons_of_mem a hb))]

/-- On a list whose zone keys are pairwise distinct, the zone stage is the
identity: every group is a singleton and passes through in order. -/
theorem resolveZoneConflict_of_nodupZones :
    ∀ l : List Action, (l.map (·.zones)).Nodup → resolveZoneConflict l = l := by
  intro l
  induction l with
  | nil => intro _; rfl
  | cons a t ih =>
    intro h
    rw [List.map_cons, List.nodup_cons] at h
    obtain ⟨hz, ht⟩ := h
    have h1 : firstKeys (t.map (·.zones)) = t.map (·.zones) := firstKeys_of_nodup _ ht
    have h2 : (t.map (·.zones)).filter (· ≠ a.zones) = t.map (·.zones) := by
      rw [List.filter_eq_self]
      intro b hb
      have hne : b ≠ a.zones := by
        rintro rfl
        exact hz hb
      simp [hne]
    have hfilt : t.filter (fun x => decide (x.zones = a.zones)) = [] := by
      rw [List.filter_eq_nil_iff]
      intro b hb
      simp only [decide_eq_true_eq]
      intro hbz
      exact hz (List.mem_map.2 ⟨b, hb, hbz⟩)
    have hfa : (a :: t).filter (fun x => decide (x.zones = a.zones)) = [a] := by
      rw [List.filter_cons]
      simp [hfilt]
    have hpick : zonePick (a :: t) a.zones = some a := by
      unfold zonePick
      rw [hfa]
    have h3 : ∀ z ∈ t.map (·.zones), zonePick (a :: t) z = zonePick t z := by
      intro z hzmem
      have hne : ¬ (a.zones = z) := fun he => hz (he ▸ hzmem)
      unfold zonePick
      rw [List.filter_cons]
      simp only [decide_eq_true_eq, if_neg hne]
    unfold resolveZoneConflict
    rw [List.map_cons]
    simp only [firstKeys, h1, h2, List.filterMap_cons, hpick]
    rw [filterMap_congr_mem _ h3]
    have ih2 := ih ht
    unfold resolveZoneConflict at ih2
    rw [h1] at ih2
    rw [ih2]

/-! ### Helper lemmas: aligning derivations along sublists and permutations -/

theorem forall₂_sublist {R : Action → Action → Prop} :
    ∀ {u l2 : List Action}, u.Sublist l2 → ∀ {l1 : List Action}, List.Forall₂ R l1 l2 →
      ∃ t, t.Sublist l1 ∧ List.Forall₂ R t u := by
  intro u l2 hsub
  induction hsub with
  | slnil =>
    intro l1 h
    cases h
    exact ⟨[], List.Sublist.refl _, List.Forall₂.nil⟩
  | cons b hsub ih =>
    intro l1 h
    cases h with
    | cons hR hF =>
      obtain ⟨t, ht, htf⟩ := ih hF
      exact ⟨t, ht.cons _, htf⟩
  | cons₂ b hsub ih =>
    intro l1 h
    cases h with
    | cons hR hF =>
      obtain ⟨t, ht, htf⟩ := ih hF
      exact ⟨_ :: t, ht.cons₂ _, List.Forall₂.cons hR htf⟩

theorem forall₂_perm_right {R : Action → Action → Prop} :
    ∀ {l2 l2' : List Action}, l2.Perm l2' → ∀ {l1 : List Action}, List.Forall₂ R l1 l2 →
      ∃ t, l1.Perm t ∧ List.Forall₂ R t l2' := by
  intro l2 l2' hperm
  induction hperm with
  | nil =>
    intro l1 hF
    cases hF
    exact ⟨[], List.Perm.nil, List.Forall₂.nil⟩
  | cons b hperm ih =>
    intro l1 hF
    cases hF with
    | cons hR hF2 =>
      obtain ⟨t, htp, htf⟩ := ih hF2
      exact ⟨_ :: t, htp.cons _, List.Forall₂.cons hR htf⟩
  | swap x y m =>
    intro l1 hF
    cases hF with
    | cons hR1 hF1 =>
      cases hF1 with
      | cons hR2 hF2 =>
        exact ⟨_, List.Perm.swap _ _ _, List.Forall₂.cons hR2 (List.Forall₂.cons hR1 hF2)⟩
  | trans h1 h2 ih1 ih2 =>
    intro l1 hF
    obtain ⟨t1, hp1, hf1⟩ := ih1 hF
    obtain ⟨t2, hp2, hf2⟩ := ih2 hf1
    exact ⟨t2, hp1.trans hp2, hf2⟩

theorem forall₂_subperm_right {R : Action → Action → Prop} {l1 l2 u : List Action}
    (hF : List.Forall₂ R l1 l2) (hu : u.Subperm l2) :
    ∃ t, t.Subperm l1 ∧ List.Forall₂ R t u := by
  obtain ⟨w, hwp, hws⟩ := hu
  obtain ⟨t0, ht0s, ht0f⟩ := forall₂_sublist hws hF
  obtain ⟨t, htp, htf⟩ := forall₂_perm_right hwp ht0f
  exact ⟨t, ⟨t0, htp, ht0s⟩, htf⟩

theorem forall₂_comp {R1 R2 : Action → Action → Prop} :
    ∀ {a b c : List Action}, List.Forall₂ R1 a b → List.Forall₂ R2 b c →
      List.Forall₂ (fun x z => ∃ y, R1 x y ∧ R2 y z) a c := by
  intro a b c h1
  induction h1 generalizing c with
  | nil =>
    intro h2
    cases h2
    exact List.Forall₂.nil
  | cons hR hF ih =>
    intro h2
    cases h2 with
    | cons hR2 hF2 =>
      exact List.Forall₂.cons ⟨_, hR, hR2⟩ (ih hF2)

theorem derivList_comp {R1 R2 : Action → Action → Prop} {x y z : List Action}
    (h1 : DerivList R1 x y) (h2 : DerivList R2 y z) :
    DerivList (fun a c => ∃ b, R1 a b ∧ R2 b c) x z := by
  obtain ⟨t1, ht1, hf1⟩ := h1
  obtain ⟨t2, ht2, hf2⟩ := h2
  obtain ⟨t0, ht0, hf0⟩ := forall₂_subperm_right hf1 ht2
  exact ⟨t0, ht0.trans ht1, forall₂_comp hf0 hf2⟩

theorem derivList_mono {R1 R2 : Action → Action → Prop} {x y : List Action}
    (h : DerivList R1 x y) (himp : ∀ a b, R1 a b → R2 a b) : DerivList R2 x y := by
  obtain ⟨t, hts, htf⟩ := h
  exact ⟨t, hts, htf.imp (fun a b hab => himp a b hab)⟩

/-! ### Helper lemmas: validation outcomes under a fixed low-AQI context -/

theorem aqiCooling_condition_false {ctx : Context} (hAqi : ctx.aqi.getD 0 ≤ 200)
    (a : Action) : aqiCoolingPolicy.condition ctx a = false := by
  simp only [aqiCoolingPolicy, Bool.and_eq_false_iff, decide_eq_false_iff_not, not_lt]
  exact Or.inr hAqi

theorem validatedActions_eq_of_survives {ctx : Context} :
    ∀ l : List Action, (∀ a ∈ l, Survives ctx a) → validatedActions l ctx = l := by
  intro l
  induction l with
  | nil => intro _; rfl
  | cons a t ih =>
    intro h
    obtain ⟨vio, mods, s, ha⟩ := h a (List.mem_cons_self ..)
    unfold validatedActions
    rw [List.filterMap_cons, ha]
    have ih2 := ih (fun b hb => h b (List.mem_cons_of_mem a hb))
    unfold validatedActions at ih2
    rw [ih2]

theorem mem_validatedActions_lowAqi {ctx : Context} (hAqi : ctx.aqi.getD 0 ≤ 200)
    {l : List Action} {b : Action} (hb : b ∈ validatedActions l ctx) :
    b ∈ l ∧ Survives ctx b := by
  unfold validatedActions at hb
  obtain ⟨a, ha, hsome⟩ := List.mem_filterMap.1 hb
  rcases validateAction_lowAqi hAqi a with ⟨r, hr⟩ | ⟨v, vio, mods, s, hfull⟩
  · rw [hr] at hsome; cases hsome
  · rw [hfull] at hsome
    cases v with
    | false => cases hsome
    | true =>
      have hba : b = a := by
        simpa using hsome.symm
      subst hba
      exact ⟨ha, vio, mods, s, hfull⟩

theorem policies_condition_key {ctx : Context} {a b : Action}
    (hn : a.name = b.name) (hp : a.priority = b.priority) :
    ∀ p ∈ policies, p.condition ctx a = p.condition ctx b := by
  intro p hmem
  simp only [policies, List.mem_cons, List.not_mem_nil, or_false] at hmem
  rcases hmem with rfl | rfl | rfl | rfl | rfl
  · simp [energyThresholdPolicy, hn]
  · simp [coolingDuringPeakPolicy, hn]
  · simp [conflictingBarriersPolicy, hn]
  · simp [emergencyOverridePolicy, hp]
  · simp [aqiCoolingPolicy, hn]

theorem policyLoop_key {ctx : Context} {a b : Action} :
    ∀ ps : List Policy,
      (∀ p ∈ ps, p.condition ctx a = p.condition ctx b) →
      (∀ p ∈ ps, p.effect = "MODIFY" → p.condition ctx a = false) →
      ∀ vio mods,
        (∃ r, policyLoop ctx ps a vio mods = .deferredR r ∧
          policyLoop ctx ps b vio mods = .deferredR r) ∨
        (∃ v m, policyLoop ctx ps a vio mods = .proceed a v m ∧
          policyLoop ctx ps b vio mods = .proceed b v m) := by
  intro ps
  induction ps with
  | nil => exact fun _ _ vio mods => Or.inr ⟨vio, mods, rfl, rfl⟩
  | cons p ps ih =>
    intro hkey hmod vio mods
    have hkey2 : ∀ q ∈ ps, q.condition ctx a = q.condition ctx b :=
      fun q hq => hkey q (List.mem_cons_of_mem p hq)
    have hmod2 : ∀ q ∈ ps, q.effect = "MODIFY" → q.condition ctx a = false :=
      fun q hq => hmod q (List.mem_cons_of_mem p hq)
    have hkp := hkey p (List.mem_cons_self ..)
    cases hc : p.condition ctx a with
    | false =>
      have hcb : p.condition ctx b = false := hkp ▸ hc
      simp only [policyLoop, hc, hcb, Bool.false_eq_true, if_false]
      exact ih hkey2 hmod2 vio mods
    | true =>
      have hcb : p.condition ctx b = true := hkp ▸ hc
      by_cases hB : p.effect = "BLOCK"
      · simp only [policyLoop, hc, hcb, if_true, if_pos hB]
        exact ih hkey2 hmod2 _ mods
      · by_cases hD : p.effect = "DEFER"
        · simp only [policyLoop, hc, hcb, if_true, if_neg hB, if_pos hD]
          exact Or.inl ⟨p.reason, rfl, rfl⟩
        · have hM : p.effect ≠ "MODIFY" := by
            intro hM
            have := hmod p (List.mem_cons_self ..) hM
            rw [hc] at this
            cases this
          simp only [policyLoop, hc, hcb, if_true, if_neg hB, if_neg hD, if_neg hM]
          exact ih hkey2 hmod2 vio mods

theorem policies_modify_false {ctx : Context} (hAqi : ctx.aqi.getD 0 ≤ 200) (a : Action) :
    ∀ p ∈ policies, p.effect = "MODIFY" → p.condition ctx a = false := by
  intro p hmem
  simp only [policies, List.mem_cons, List.not_mem_nil, or_false] at hmem
  rcases hmem with rfl | rfl | rfl | rfl | rfl
  · intro h; simp [energyThresholdPolicy] at h
  · intro h; simp [coolingDuringPeakPolicy] at h
  · intro h; simp [conflictingBarriersPolicy] at h
  · intro h; simp [emergencyOverridePolicy] at h
  · intro _; exact aqiCooling_condition_false hAqi a

/-- Survival of validation depends only on the action name and priority (the
only action fields any policy condition reads), provided the MODIFY policy is
disabled by a low AQI. -/
theorem survives_key {ctx : Context} (hAqi : ctx.aqi.getD 0 ≤ 200) {a b : Action}
    (hn : a.name = b.name) (hp : a.priority = b.priority)
    (hs : Survives ctx a) : Survives ctx b := by
  obtain ⟨vio, mods, s, h⟩ := hs
  rcases @policyLoop_key ctx a b policies
      (policies_condition_key hn hp) (policies_modify_false hAqi a) [] [] with
    ⟨r, ha', hb'⟩ | ⟨v, m, ha', hb'⟩
  · unfold validateAction at h
    rw [ha'] at h
    cases h
  · unfold validateAction at h
    rw [ha'] at h
    dsimp only at h
    have hv : (v.isEmpty && allSafe ctx) = true := by
      injection h
    unfold Survives validateAction
    rw [hb']
    dsimp only
    rw [hv]
    exact ⟨v, m, safetyResults ctx, rfl⟩


/-! ### Claim theorems -/

/-- C1: the spec claims that any matching ALLOW policy forces `valid = true`
(override semantics).  In the code `validate_action` has no ALLOW branch at
all, so the `emergency_override` policy is dead: here its condition matches
`(c1Ctx, c1Action)`, yet the `cooling_during_peak` DEFER policy returns
`valid = false`. -/
theorem C1_allow_never_applied :
    emergencyOverridePolicy.condition c1Ctx c1Action = true ∧
    (validateAction c1Action c1Ctx).valid = false := by
  constructor
  · with_unfolding_all decide
  · with_unfolding_all decide

/-- C2: the spec claims that the action-pair stage keeps at most one member of
each mutually exclusive pair.  In the code, an action whose inner pair loop
does not fire is appended by the trailing `if not conflict_found`, so
`_resolve_action_conflict` returns its input unchanged; in particular both
`RAISE_COASTAL_BARRIERS` and `LOWER_COASTAL_BARRIERS` survive
`resolve_conflicts`. -/
theorem C2_pair_stage_keeps_both :
    (∀ l : List Action, resolveActionConflict l = l) ∧
    resolveConflicts [c2Raise, c2Lower] c2Ctx = [c2Raise, c2Lower] := by
  refine ⟨actionConflict_identity, ?_⟩
  with_unfolding_all decide

/-- C3 counterexample: with energy load 6100 (over the 6000 max) the capacity
stage returns the empty list whose total impact 0 exceeds the negative
available capacity, and no CRITICAL clipping occurred, falsifying the claimed
invariant for this context. -/
theorem C3_counterexample :
    resolveEnergyConflict [] c3Ctx = [] ∧
    ¬ sumImpact (resolveEnergyConflict [] c3Ctx) ≤ 6000 - c3Ctx.energy_load.getD 4500 := by
  constructor
  · with_unfolding_all decide
  · with_unfolding_all decide

/-- C3 (amended): whenever the current energy load is at most the maximum
capacity 6000, the capacity stage's output satisfies
`Σ energy_impact_mw ≤ max_capacity − current_load`; this bound also covers the
clip case, where the clipped CRITICAL action brings the total to exactly the
available capacity. -/
theorem C3_capacity_invariant (actions : List Action) (ctx : Context)
    (h : ctx.energy_load.getD 4500 ≤ 6000) :
    sumImpact (resolveEnergyConflict actions ctx) ≤ 6000 - ctx.energy_load.getD 4500 :=
  resolveEnergyConflict_sum actions h

/-- C3 witness: the capacity invariant at a concrete input. -/
theorem C3_witness :
    c3wCtx.energy_load.getD 4500 ≤ 6000 ∧
    sumImpact (resolveEnergyConflict [c3wAct] c3wCtx) ≤ 6000 - c3wCtx.energy_load.getD 4500 :=
  ⟨by with_unfolding_all decide, C3_capacity_invariant [c3wAct] c3wCtx (by with_unfolding_all decide)⟩

/-- C4 counterexample: available capacity is 100; the first action in sorted
order (HIGH, impact 150) overflows and is not CRITICAL, yet the later MEDIUM
action (impact 50) is still accepted — the claim says everything after the
overflowing action is dropped. -/
theorem C4_counterexample :
    sortByRank [c4High, c4Med] = [c4High, c4Med] ∧
    ¬ sumImpact [c4High, c4Med] ≤ 6000 - c4Ctx.energy_load.getD 4500 ∧
    ¬ (0 : ℚ) + c4High.energy_impact_mw ≤ 6000 - c4Ctx.energy_load.getD 4500 ∧
    c4High.priority ≠ "CRITICAL" ∧
    resolveEnergyConflict [c4High, c4Med] c4Ctx = [c4Med] := by
  refine ⟨by with_unfolding_all decide, by with_unfolding_all decide, by with_unfolding_all decide, by with_unfolding_all decide, by with_unfolding_all decide⟩

/-- C4 (amended): when the next action in the sorted order would overflow the
available capacity and is not CRITICAL, the greedy loop of the capacity stage
drops that action without clipping and continues with the remaining actions;
in particular a later action that fits the unchanged running total is still
accepted. -/
theorem C4_noncritical_overflow_drops_one (avail cum : ℚ) (a b : Action)
    (rest : List Action)
    (hover : ¬ cum + a.energy_impact_mw ≤ avail) (hcrit : a.priority ≠ "CRITICAL") :
    energyGreedy avail (a :: rest) cum = energyGreedy avail rest cum ∧
      (cum + b.energy_impact_mw ≤ avail → energyGreedy avail [a, b] cum = [b]) := by
  constructor
  · simp only [energyGreedy, if_neg hover, if_neg hcrit]
  · intro hfit
    simp only [energyGreedy, if_neg hover, if_neg hcrit, if_pos hfit]

/-- C4 witness: the amended behaviour at a concrete input. -/
theorem C4_witness :
    energyGreedy 100 [c4High, c4Med] 0 = energyGreedy 100 [c4Med] 0 ∧
    energyGreedy 100 [c4High, c4Med] 0 = [c4Med] :=
  ⟨(C4_noncritical_overflow_drops_one 100 0 c4High c4Med [c4Med]
      (by with_unfolding_all decide) (by with_unfolding_all decide)).1,
   (C4_noncritical_overflow_drops_one 100 0 c4High c4Med [c4Med]
      (by with_unfolding_all decide) (by with_unfolding_all decide)).2 (by with_unfolding_all decide)⟩

/-- C6 counterexample: two invocations of `orchestrate` with the same context,
city, agent set and policy set but different clock readings differ — the
result embeds `datetime.now().isoformat()` — so invocations are not
byte-identical. -/
theorem C6_counterexample :
    orchestrate c6Ctx "Mumbai" "2025-01-01T00:00:00" true ≠
      orchestrate c6Ctx "Mumbai" "2025-01-01T00:00:01" true := by
  intro h
  have h2 : "2025-01-01T00:00:00" = "2025-01-01T00:00:01" :=
    congrArg OrchestrationResult.timestamp h
  exact absurd h2 (by decide)

/-- C6 (amended): `orchestrate` is deterministic apart from the timestamp
field: the same (context, agent set, policy set) yields the same result in
every other field, whatever the clock reads. -/
theorem C6_deterministic_up_to_timestamp (ctx : Context) (city now1 now2 : String)
    (up : Bool) :
    stripTimestamp (orchestrate ctx city now1 up) =
      stripTimestamp (orchestrate ctx city now2 up) := rfl

/-- C8 counterexample: when the second agent's `analyze` raises, `orchestrate`
propagates the exception — the run aborts with the error and no result (and in
particular no analyses of the other agents, no degraded status) is produced. -/
theorem C8_counterexample :
    orchestrateE [c8Ok1, c8Fail, c8Ok2] c8Ctx "Mumbai" "t0" true =
      .error "sensor offline" := rfl

/-- C8 (amended): there is no per-agent exception handling in `orchestrate`:
if every agent before `f` analyzes successfully and `f` raises, the whole run
aborts with `f`'s exception; no OrchestrationResult is produced and no status
is ever recorded as degraded. -/
theorem C8_exception_aborts (pre post : List AgentE) (f : AgentE) (ctx : Context)
    (e : String) (city now : String) (up : Bool)
    (hpre : ∀ g ∈ pre, ∃ an, g.analyzeE ctx = .ok an)
    (hf : f.analyzeE ctx = .error e) :
    orchestrateE (pre ++ f :: post) ctx city now up = .error e := by
  have hrun : runAgentsE (pre ++ f :: post) ctx = .error e := by
    induction pre with
    | nil => simp only [List.nil_append, runAgentsE, hf]
    | cons g gs ih =>
      obtain ⟨an, han⟩ := hpre g (List.mem_cons_self ..)
      have ih2 := ih (fun g2 hg2 => hpre g2 (List.mem_cons_of_mem _ hg2))
      simp only [List.cons_append, runAgentsE, han, List.append_eq, ih2]
  unfold orchestrateE
  rw [hrun]

/-- C8 witness: the abort behaviour at a concrete input. -/
theorem C8_witness :
    orchestrateE ([c8Ok1] ++ c8wFail :: [c8Ok2]) c8Ctx "Mumbai" "t1" true =
      .error "boom" :=
  C8_exception_aborts [c8Ok1] [c8Ok2] c8wFail c8Ctx "boom" "Mumbai" "t1" true
    (fun g hg => by
      rcases List.mem_singleton.1 hg with rfl
      exact ⟨heatAnalyze c8Ctx, rfl⟩)
    rfl

/-- C9 counterexample: with no forecast, temperature exactly 38 yields risk
High (the claim says Critical) and temperature exactly 32 yields Low (the
claim says Medium): the code compares with strict `>` everywhere. -/
theorem C9_counterexample :
    c9Ctx38.temp_forecast = none ∧ c9Ctx32.temp_forecast = none ∧
    (heatAnalyze c9Ctx38).risk_level = "High" ∧
    (heatAnalyze c9Ctx38).risk_level ≠ "Critical" ∧
    (heatAnalyze c9Ctx32).risk_level = "Low" ∧
    (heatAnalyze c9Ctx32).risk_level ≠ "Medium" := by
  refine ⟨rfl, rfl, by with_unfolding_all decide, by with_unfolding_all decide, by with_unfolding_all decide, by with_unfolding_all decide⟩

/-- C9 (amended): for a context without a forecast, HeatAgent classifies by
half-open intervals with strict lower bounds: at most 32 → Low, above 32 up to
35 → Medium, above 35 up to 38 → High, above 38 → Critical; in particular
exactly 32 is Low and exactly 38 is High. -/
theorem C9_heat_thresholds (ctx : Context) (hf : ctx.temp_forecast = none) :
    (ctx.temperature.getD 30 ≤ 32 → (heatAnalyze ctx).risk_level = "Low") ∧
    (32 < ctx.temperature.getD 30 → ctx.temperature.getD 30 ≤ 35 →
      (heatAnalyze ctx).risk_level = "Medium") ∧
    (35 < ctx.temperature.getD 30 → ctx.temperature.getD 30 ≤ 38 →
      (heatAnalyze ctx).risk_level = "High") ∧
    (38 < ctx.temperature.getD 30 → (heatAnalyze ctx).risk_level = "Critical") := by
  have hfa : ∀ th, forecastAbove ctx th = false := by
    intro th
    simp [forecastAbove, hf]
  refine ⟨?_, ?_, ?_, ?_⟩
  · intro h1
    have h38 : ¬ (38 < ctx.temperature.getD 30 ∨ forecastAbove ctx 38 = true) := by
      simp only [hfa]
      rintro (h | h)
      · linarith
      · cases h
    have h35 : ¬ (35 < ctx.temperature.getD 30 ∨ forecastAbove ctx 35 = true) := by
      simp only [hfa]
      rintro (h | h)
      · linarith
      · cases h
    have h32 : ¬ (32 < ctx.temperature.getD 30) := by linarith
    simp only [heatAnalyze, if_neg h38, if_neg h35, if_neg h32]
  · intro h1 h2
    have h38 : ¬ (38 < ctx.temperature.getD 30 ∨ forecastAbove ctx 38 = true) := by
      simp only [hfa]
      rintro (h | h)
      · linarith
      · cases h
    have h35 : ¬ (35 < ctx.temperature.getD 30 ∨ forecastAbove ctx 35 = true) := by
      simp only [hfa]
      rintro (h | h)
      · linarith
      · cases h
    simp only [heatAnalyze, if_neg h38, if_neg h35, if_pos h1]
  · intro h1 h2
    have h38 : ¬ (38 < ctx.temperature.getD 30 ∨ forecastAbove ctx 38 = true) := by
      simp only [hfa]
      rintro (h | h)
      · linarith
      · cases h
    have h35 : (35 < ctx.temperature.getD 30 ∨ forecastAbove ctx 35 = true) := Or.inl h1
    simp only [heatAnalyze, if_neg h38, if_pos h35]
  · intro h1
    have h38 : (38 < ctx.temperature.getD 30 ∨ forecastAbove ctx 38 = true) := Or.inl h1
    simp only [heatAnalyze, if_pos h38]

/-- C9 witness: the amended thresholds at a concrete input (40 degrees is
Critical). -/
theorem C9_witness :
    c9wCtx.temp_forecast = none ∧ (heatAnalyze c9wCtx).risk_level = "Critical" :=
  ⟨rfl, (C9_heat_thresholds c9wCtx rfl).2.2.2 (by with_unfolding_all decide)⟩

/-! ### Safety-check failure lemmas and C7 -/

theorem safetyResults_has_failure {ctx : Context} (h : SafetyFailure ctx) :
    ∃ c ∈ safetyResults ctx, c.passed = false := by
  rcases h with h | h | h
  · have hc : decide (ctx.energy_load.getD 0 < 6000) = false :=
      decide_eq_false_iff_not.2 (not_lt.2 h)
    refine ⟨⟨"energy_capacity", false, "Safety check failed: energy_capacity"⟩, ?_, rfl⟩
    simp only [safetyResults, safetyChecks, List.map_cons, List.map_nil, hc,
      Bool.false_eq_true, if_false]
    exact List.mem_cons_self ..
  · have hc : decide (ctx.system_health.getD "operational" = "operational") = false :=
      decide_eq_false_iff_not.2 h
    refine ⟨⟨"system_health", false, "Safety check failed: system_health"⟩, ?_, rfl⟩
    simp only [safetyResults, safetyChecks, List.map_cons, List.map_nil, hc,
      Bool.false_eq_true, if_false]
    exact List.mem_cons_of_mem _ (List.mem_cons_self ..)
  · have hc : decide ((0.8 : ℚ) < ctx.sensor_connectivity.getD 0.95) = false :=
      decide_eq_false_iff_not.2 (not_lt.2 h)
    refine ⟨⟨"sensor_connectivity", false, "Safety check failed: sensor_connectivity"⟩, ?_, rfl⟩
    simp only [safetyResults, safetyChecks, List.map_cons, List.map_nil, hc,
      Bool.false_eq_true, if_false]
    exact List.mem_cons_of_mem _ (List.mem_cons_of_mem _ (List.mem_cons_self ..))

theorem allSafe_false {ctx : Context} (h : SafetyFailure ctx) : allSafe ctx = false := by
  obtain ⟨c, hcm, hcp⟩ := safetyResults_has_failure h
  unfold allSafe
  cases hall : (safetyResults ctx).all (·.passed) with
  | false => rfl
  | true =>
    have := List.all_eq_true.1 hall c hcm
    rw [hcp] at this
    cases this

theorem validateAction_valid_false {ctx : Context} (h : allSafe ctx = false) (a : Action) :
    (validateAction a ctx).valid = false := by
  unfold validateAction
  cases hpl : policyLoop ctx policies a [] [] with
  | deferredR r => rfl
  | proceed a1 vio mods =>
    simp only [ValidationResult.valid, h, Bool.and_false]

theorem validatedActions_nil_of_invalid {ctx : Context}
    (h : ∀ a, (validateAction a ctx).valid = false) :
    ∀ actions, validatedActions actions ctx = [] := by
  intro actions
  induction actions with
  | nil => rfl
  | cons a t ih =>
    unfold validatedActions at ih ⊢
    rw [List.filterMap_cons]
    have ha := h a
    cases hv : validateAction a ctx with
    | deferredR r =>
      exact ih
    | full v vio mods s a1 =>
      rw [hv] at ha
      have hvf : v = false := ha
      subst hvf
      exact ih

theorem resolveEnergyConflict_nilList (ctx : Context) :
    resolveEnergyConflict [] ctx = [] := by
  unfold resolveEnergyConflict
  by_cases hfit : sumImpact [] ≤ 6000 - ctx.energy_load.getD 4500
  · rw [if_pos hfit]
  · rw [if_neg hfit]
    rfl

/-- C7 counterexample: with energy load 6500 the `energy_capacity` safety
check fails, but a cooling action hits the `cooling_during_peak` DEFER policy
first: `validate_action` early-returns the defer dict, which carries no
safety-check list at all — so the failing checks are not listed for this
action, though `valid` is still false. -/
theorem C7_counterexample :
    ¬ c7Ctx.energy_load.getD 0 < 6000 ∧
    validateAction c7Act c7Ctx =
      .deferredR "Peak energy load - defer cooling to avoid grid overload" := by
  constructor
  · with_unfolding_all decide
  · with_unfolding_all decide

/-- C7 (amended): if any global safety check fails for a context, then
`validate_action` reports `valid = false` for every action; every result that
reaches the safety-check phase (i.e. is not a DEFER early return) lists a
failing check; and `resolve_conflicts` returns the empty list for every input
action list under that context. -/
theorem C7_safety_failure_invalidates (ctx : Context) (h : SafetyFailure ctx) :
    (∀ a, (validateAction a ctx).valid = false) ∧
    (∀ a v vio mods s a1, validateAction a ctx = .full v vio mods s a1 →
      ∃ c ∈ s, c.passed = false) ∧
    (∀ actions, resolveConflicts actions ctx = []) := by
  have hall := allSafe_false h
  refine ⟨fun a => validateAction_valid_false hall a, ?_, ?_⟩
  · intro a v vio mods s a1 hfull
    have hs : s = safetyResults ctx := by
      unfold validateAction at hfull
      cases hpl : policyLoop ctx policies a [] [] with
      | deferredR r =>
        rw [hpl] at hfull
        cases hfull
      | proceed a2 vio2 mods2 =>
        rw [hpl] at hfull
        injection hfull with h1 h2 h3 h4 h5
        exact h4.symm
    rw [hs]
    exact safetyResults_has_failure h
  · intro actions
    unfold resolveConflicts
    rw [validatedActions_nil_of_invalid (fun a => validateAction_valid_false hall a) actions,
      resolveEnergyConflict_nilList]
    exact actionConflict_identity []

/-- C7 witness: the amended claim at a concrete input (system health
"degraded"). -/
theorem C7_witness :
    SafetyFailure c7wCtx ∧ (validateAction c7wAct c7wCtx).valid = false ∧
    resolveConflicts [c7wAct] c7wCtx = [] :=
  ⟨Or.inr (Or.inl (by decide)),
   (C7_safety_failure_invalidates c7wCtx (Or.inr (Or.inl (by decide)))).1 c7wAct,
   (C7_safety_failure_invalidates c7wCtx (Or.inr (Or.inl (by decide)))).2.2 [c7wAct]⟩

/-! ### Provenance of resolution (C10) -/

theorem validatedActions_deriv (actions : List Action) (ctx : Context) :
    ∃ t, t.Sublist actions ∧
      List.Forall₂ (fun a b => b = a ∨ b = aqiModify a) t (validatedActions actions ctx) := by
  induction actions with
  | nil => exact ⟨[], List.Sublist.refl _, List.Forall₂.nil⟩
  | cons a rest ih =>
    obtain ⟨t, hts, htf⟩ := ih
    unfold validatedActions at htf ⊢
    rw [List.filterMap_cons]
    rcases validateAction_shape a ctx with ⟨r, hr⟩ | ⟨v, vio, mods, s, a1, hfull, hder⟩
    · rw [hr]
      exact ⟨t, hts.cons a, htf⟩
    · rw [hfull]
      cases v with
      | false => exact ⟨t, hts.cons a, htf⟩
      | true => exact ⟨a :: t, hts.cons₂ a, List.Forall₂.cons hder htf⟩

theorem resolveConflicts_deriv (actions : List Action) (ctx : Context) :
    DerivList Derives actions (resolveConflicts actions ctx) := by
  obtain ⟨t1, ht1, hf1⟩ := validatedActions_deriv actions ctx
  have hV : DerivList (fun a b => b = a ∨ b = aqiModify a) actions
      (validatedActions actions ctx) := ⟨t1, ht1.subperm, hf1⟩
  have hE : DerivList DerivClip (validatedActions actions ctx)
      (resolveEnergyConflict (validatedActions actions ctx) ctx) :=
    resolveEnergyConflict_deriv _ ctx
  have hZ : DerivList Eq (resolveEnergyConflict (validatedActions actions ctx) ctx)
      (resolveZoneConflict (resolveEnergyConflict (validatedActions actions ctx) ctx)) := by
    refine ⟨resolveZoneConflict _, resolveZoneConflict_subperm _, ?_⟩
    rw [List.forall₂_same]
    exact fun a _ => rfl
  have h123 := derivList_comp (derivList_comp hV hE) hZ
  unfold resolveConflicts
  rw [actionConflict_identity]
  refine derivList_mono h123 ?_
  rintro a c ⟨b2, ⟨b1, hab1, hb1b2⟩, rfl⟩
  rcases hab1 with rfl | rfl
  · rcases hb1b2 with rfl | ⟨hcrit, v, hv, rfl⟩
    · exact Or.inl rfl
    · exact Or.inr (Or.inr (Or.inl ⟨hcrit, v, hv, rfl⟩))
  · rcases hb1b2 with rfl | ⟨hcrit, v, hv, rfl⟩
    · exact Or.inr (Or.inl rfl)
    · exact Or.inr (Or.inr (Or.inr ⟨hcrit, v, hv, rfl⟩))

theorem resolveConflicts_length_le (actions : List Action) (ctx : Context) :
    (resolveConflicts actions ctx).length ≤ actions.length := by
  obtain ⟨t, hts, htf⟩ := resolveConflicts_deriv actions ctx
  calc (resolveConflicts actions ctx).length = t.length := htf.length_eq.symm
    _ ≤ actions.length := hts.length_le

theorem dedupByKey_length_le :
    ∀ (l : List Action) (seen : List String), (dedupByKey l seen).length ≤ l.length := by
  intro l
  induction l with
  | nil => intro seen; exact Nat.le_refl 0
  | cons a t ih =>
    intro seen
    simp only [dedupByKey]
    split
    · exact Nat.le_trans (ih seen) (Nat.le_succ _)
    · simpa using ih _

theorem simpleResolve_length_le (l : List Action) :
    (simpleResolve l).length ≤ l.length := by
  unfold simpleResolve
  calc (dedupByKey (sortByRank l) []).length ≤ (sortByRank l).length :=
        dedupByKey_length_le _ _
    _ = l.length := (sortByRank_perm l).length_eq

/-- C10: every action returned by `resolve_conflicts` originates from exactly
one input candidate (some sub-multiset of the input aligns elementwise with
the output), and is that candidate unchanged except for the
`aqi_cooling_conflict` MODIFY rewrite (name and reason only) and/or the
capacity-stage clip of a CRITICAL action (impact strictly lowered,
`scope_reduced` set); hence the output is never longer than the input and
`conflicts_detected` in the orchestration result is never negative. -/
theorem C10_provenance_frame :
    (∀ (actions : List Action) (ctx : Context),
      DerivList Derives actions (resolveConflicts actions ctx) ∧
      (resolveConflicts actions ctx).length ≤ actions.length) ∧
    (∀ (ctx : Context) (city now : String) (up : Bool),
      0 ≤ (orchestrate ctx city now up).conflicts_detected) := by
  constructor
  · exact fun actions ctx =>
      ⟨resolveConflicts_deriv actions ctx, resolveConflicts_length_le actions ctx⟩
  · intro ctx city now up
    cases up with
    | true =>
      have h : (orchestrate ctx city now true).conflicts_detected =
          ((allActionsOf (buildAnalyses ctx)).length : ℤ) -
            (resolveConflicts (allActionsOf (buildAnalyses ctx)) ctx).length := rfl
      rw [h, sub_nonneg]
      exact_mod_cast resolveConflicts_length_le _ _
    | false =>
      have h : (orchestrate ctx city now false).conflicts_detected =
          ((allActionsOf (buildAnalyses ctx)).length : ℤ) -
            (simpleResolve (allActionsOf (buildAnalyses ctx))).length := rfl
      rw [h, sub_nonneg]
      exact_mod_cast simpleResolve_length_le _

/-! ### Idempotence of resolution (C5) -/

theorem resolveEnergyConflict_of_fit {l : List Action} {ctx : Context}
    (h : sumImpact l ≤ 6000 - ctx.energy_load.getD 4500) :
    resolveEnergyConflict l ctx = l := by
  unfold resolveEnergyConflict
  rw [if_pos h]

/-- C5 counterexample: with AQI 250 the `aqi_cooling_conflict` MODIFY policy
rewrites the surviving cooling action to `ACTIVATE_COOLING_WITH_AIR_FILTER` —
a name that still contains "COOLING" — so a second `resolve_conflicts` run
fires the policy again and appends the " (with air filtration)" suffix to the
reason once more: the output differs from the input. -/
theorem C5_counterexample :
    resolveConflicts (resolveConflicts [c5Act] c5Ctx) c5Ctx ≠
      resolveConflicts [c5Act] c5Ctx := by
  with_unfolding_all decide

/-- C5 (amended): `resolve_conflicts` is idempotent under a fixed context
provided the context AQI (default 0) is at most 200 — so the re-triggering
MODIFY policy is disabled — and every input action's energy impact is
nonnegative — so the zone stage cannot raise the total impact above the
available capacity by dropping negative-impact actions. -/
theorem C5_idempotent (actions : List Action) (ctx : Context)
    (hAqi : ctx.aqi.getD 0 ≤ 200)
    (hpos : ∀ a ∈ actions, 0 ≤ a.energy_impact_mw) :
    resolveConflicts (resolveConflicts actions ctx) ctx =
      resolveConflicts actions ctx := by
  have hVmem : ∀ b ∈ validatedActions actions ctx, b ∈ actions ∧ Survives ctx b :=
    fun b hb => mem_validatedActions_lowAqi hAqi hb
  have hVpos : ∀ a ∈ validatedActions actions ctx, 0 ≤ a.energy_impact_mw :=
    fun a ha => hpos a (hVmem a ha).1
  have hVsur : ∀ a ∈ validatedActions actions ctx, Survives ctx a :=
    fun a ha => (hVmem a ha).2
  have hEsur : ∀ b ∈ resolveEnergyConflict (validatedActions actions ctx) ctx,
      Survives ctx b := by
    intro b hb
    rcases resolveEnergyConflict_mem hb with h | ⟨a, ha, hcrit, v, rfl⟩
    · exact hVsur b h
    · exact @survives_key ctx hAqi a (clipTo a v) rfl rfl (hVsur a ha)
  have hysur : ∀ b ∈ resolveZoneConflict
      (resolveEnergyConflict (validatedActions actions ctx) ctx), Survives ctx b :=
    fun b hb => hEsur b (resolveZoneConflict_mem hb)
  have hout : resolveConflicts actions ctx =
      resolveZoneConflict (resolveEnergyConflict (validatedActions actions ctx) ctx) := by
    unfold resolveConflicts
    rw [actionConflict_identity]
  rw [hout]
  by_cases h0 : (0 : ℚ) ≤ 6000 - ctx.energy_load.getD 4500
  · have hload : ctx.energy_load.getD 4500 ≤ 6000 := by linarith
    have hEsum : sumImpact (resolveEnergyConflict (validatedActions actions ctx) ctx) ≤
        6000 - ctx.energy_load.getD 4500 := resolveEnergyConflict_sum _ hload
    have hEpos : ∀ b ∈ resolveEnergyConflict (validatedActions actions ctx) ctx,
        0 ≤ b.energy_impact_mw := resolveEnergyConflict_nonneg h0 hVpos
    have hysum : sumImpact (resolveZoneConflict
        (resolveEnergyConflict (validatedActions actions ctx) ctx)) ≤
        6000 - ctx.energy_load.getD 4500 :=
      le_trans (sumImpact_subperm_le (resolveZoneConflict_subperm _) hEpos) hEsum
    unfold resolveConflicts
    rw [validatedActions_eq_of_survives _ hysur, resolveEnergyConflict_of_fit hysum,
      resolveZoneConflict_of_nodupZones _ (resolveZoneConflict_zones_nodup _)]
    exact actionConflict_identity _
  · push_neg at h0
    have hVsum : 0 ≤ sumImpact (validatedActions actions ctx) := sumImpact_nonneg hVpos
    have hnofit : ¬ sumImpact (validatedActions actions ctx) ≤
        6000 - ctx.energy_load.getD 4500 := by linarith
    have hEeq : resolveEnergyConflict (validatedActions actions ctx) ctx =
        energyGreedy (6000 - ctx.energy_load.getD 4500)
          (sortByRank (validatedActions actions ctx)) 0 := by
      unfold resolveEnergyConflict
      rw [if_neg hnofit]
    have hsortpos : ∀ a ∈ sortByRank (validatedActions actions ctx),
        0 ≤ a.energy_impact_mw := fun a ha => hVpos a (mem_sortByRank.1 ha)
    rcases energyGreedy_negAvail h0 _ hsortpos with hnil | ⟨a, ha, hcrit, hclip⟩
    · rw [hEeq, hnil]
      show resolveConflicts [] ctx = []
      unfold resolveConflicts
      rw [show validatedActions [] ctx = [] from rfl, resolveEnergyConflict_nilList]
      exact actionConflict_identity []
    · rw [hEeq, hclip]
      have hZsing : resolveZoneConflict [clipTo a (6000 - ctx.energy_load.getD 4500)] =
          [clipTo a (6000 - ctx.energy_load.getD 4500)] :=
        resolveZoneConflict_of_nodupZones _ (by simp)
      rw [hZsing]
      have hsc : Survives ctx (clipTo a (6000 - ctx.energy_load.getD 4500)) :=
        @survives_key ctx hAqi a (clipTo a (6000 - ctx.energy_load.getD 4500)) rfl rfl
          (hVsur a (mem_sortByRank.1 ha))
      have hfit1 : sumImpact [clipTo a (6000 - ctx.energy_load.getD 4500)] ≤
          6000 - ctx.energy_load.getD 4500 := by
        rw [sumImpact_cons, sumImpact_nil]
        simp [clipTo]
      unfold resolveConflicts
      rw [validatedActions_eq_of_survives _ ?hall, resolveEnergyConflict_of_fit hfit1, hZsing]
      · exact actionConflict_identity _
      case hall =>
        intro b hb
        rcases List.mem_singleton.1 hb with rfl
        exact hsc

/-- C5 witness: idempotence of resolution at a concrete input (AQI 100, one
HIGH action of impact 100, load 5000). -/
theorem C5_witness :
    c5wCtx.aqi.getD 0 ≤ 200 ∧ (∀ a ∈ [c5wAct], 0 ≤ a.energy_impact_mw) ∧
    resolveConflicts (resolveConflicts [c5wAct] c5wCtx) c5wCtx =
      resolveConflicts [c5wAct] c5wCtx :=
  ⟨by with_unfolding_all decide,
   by with_unfolding_all decide,
   C5_idempotent [c5wAct] c5wCtx (by with_unfolding_all decide)
     (by with_unfolding_all decide)⟩

end UCSN
